import Mathlib

set_option maxHeartbeats 1000000
set_option maxRecDepth 4000

/-!
Shallow embedding of the aggregation engine of `data_processor.py`
(the repository fizakhan90/fiza_student_perfomance).

Numbers that Python treats as floats are modelled as exact rationals; the
two-decimal rounding of `round(x, 2)` / `Series.round(2)` is modelled as
round-half-to-even on exact rationals.  Python strings are modelled as Lean
strings (the inputs of interest are ASCII); `str.lower` / `str.capitalize`
are modelled with the ASCII `Char.toLower` / `Char.toUpper`.  Absent JSON
fields are modelled with `Option`; dictionaries produced by the engine are
modelled as association lists (key insertion order is not load-bearing for
any statement below, every statement goes through `lookupA`).
-/

/-- Floor of a rational, computable (`Int.fdiv` is floor division). -/
def ratFloor (q : ℚ) : ℤ := Int.fdiv q.num (q.den : ℤ)

/-- Round a rational to the nearest integer, ties going to the even
integer, as Python `round` does on exact values. -/
def roundHalfEven (q : ℚ) : ℤ :=
  let n := ratFloor q
  let r := q - (n : ℚ)
  if r < 1/2 then n
  else if (1 : ℚ)/2 < r then n + 1
  else if n % 2 = 0 then n else n + 1

/-- `round(x, 2)` on an exact rational. -/
def round2 (q : ℚ) : ℚ := ((roundHalfEven (q * 100) : ℤ) : ℚ) / 100

/-- Arithmetic mean of a list of rationals (`Series.mean`); division by
zero yields 0 in `ℚ`, but every use below guards emptiness as the source
does. -/
def qmean (l : List ℚ) : ℚ := l.sum / (l.length : ℚ)

/-- Python `str.lower` (ASCII): lowercase every character. -/
def strLower (s : String) : String := String.mk (s.data.map Char.toLower)

/-- Word characters of the regex `\b` boundary (ASCII fragment of `\w`). -/
def isWordChar (c : Char) : Bool := c.isAlphanum || c == '_'

/-- `matchesAt w s` holds when `w` is a prefix of `s` and the character of
`s` right after that prefix, if any, is not a word character (the closing
`\b` of the regex). -/
def matchesAt : List Char → List Char → Bool
  | [], [] => true
  | [], c :: _ => !isWordChar c
  | _ :: _, [] => false
  | a :: w, c :: s => a == c && matchesAt w s

/-- Scan `s` for an occurrence of the word `w` preceded by a word boundary;
`prev` records whether the character just before the current position is a
word character. -/
def scanWord (w : List Char) : Bool → List Char → Bool
  | prev, [] => !prev && matchesAt w []
  | prev, c :: s => (!prev && matchesAt w (c :: s)) || scanWord w (isWordChar c) s

/-- `re.search(r'\b<w>\b', s)` viewed as a boolean, for a literal word `w`
whose characters are all word characters. -/
def containsWord (w s : String) : Bool := scanWord w.data false s.data

/-- Value of the `title` field of a section id object: absent, present but
not a string, or a string (Python is dynamically typed, the source guards
`isinstance(section_title, str)`). -/
inductive TitleVal where
  | absent
  | nonString
  | str (s : String)
deriving DecidableEq, Repr

/-- `extract_subject_from_title` of `data_processor.py` lines 30-40.
A falsy (`None` / empty) or non-string title is rejected up front; then the
lowercased title is searched for the whole words `physics`, `chemistry`,
`math|maths|mathematics` in that order (the regex alternation
`\bmath(s|ematics)?\b` matches exactly those three words). -/
def extract_subject_from_title (t : TitleVal) : String :=
  match t with
  | .absent => "Unknown Subject"
  | .nonString => "Unknown Subject"
  | .str s =>
    if s = "" then "Unknown Subject"
    else
      let l := strLower s
      if containsWord "physics" l then "Physics"
      else if containsWord "chemistry" l then "Chemistry"
      else if containsWord "math" l || containsWord "maths" l
              || containsWord "mathematics" l then "Maths"
      else "Other Subjects"

/-- An element of a `chapters` / `concepts` list: an object with an
optional `title` field. -/
structure Titled where
  title : Option String
deriving DecidableEq, Repr

/-- The `questionId` object of a question attempt. -/
structure QuestionDetail where
  chapters : List Titled
  concepts : List Titled
  level : Option String
deriving DecidableEq, Repr

/-- One entry of `markedOptions`. -/
structure MarkedOption where
  isCorrect : Option Bool
deriving DecidableEq, Repr

/-- The `inputValue` object of a numeric-entry question. -/
structure InputValue where
  isCorrect : Option Bool
deriving DecidableEq, Repr

/-- One question attempt of a section (the fields the engine reads). -/
structure QuestionAttempt where
  questionId : Option QuestionDetail
  markedOptions : Option (List MarkedOption)
  inputValue : Option InputValue
  status : Option String
  timeTaken : Option ℚ
deriving DecidableEq, Repr

/-- The `sectionId` object of a section. -/
structure SectionId where
  title : TitleVal
deriving DecidableEq, Repr

/-- One section of the record. -/
structure Sect where
  sectionId : Option SectionId
  questions : List QuestionAttempt
deriving DecidableEq, Repr

/-- The `test` metadata object. -/
structure TestInfo where
  totalMarks : Option ℚ
  totalQuestions : Option Nat
deriving DecidableEq, Repr

/-- Value of the top level `sections` field: absent, present but not a
list, or a list of sections. -/
inductive SectionsVal where
  | absent
  | notList
  | list (l : List Sect)
deriving DecidableEq, Repr

/-- The raw record handed to `process_student_data` (the fields the engine
reads; `none` at the call site models a falsy record). -/
structure RawRecord where
  test : Option TestInfo
  student_name : Option String
  totalMarkScored : Option ℚ
  totalTimeTaken : Option ℚ
  sections : SectionsVal
deriving DecidableEq, Repr

/-- One row of `questions_df`. -/
structure FlatQuestion where
  subject : String
  chapter : String
  difficulty : String
  concepts : List String
  status : String
  time_taken_seconds : ℚ
deriving DecidableEq, Repr

/-- Python `str.capitalize` (ASCII): first character uppercased, every
remaining character lowercased. -/
def pyCapitalize (s : String) : String :=
  match s.data with
  | [] => ""
  | c :: cs => String.mk (c.toUpper :: cs.map Char.toLower)

/-- The comprehension `[x.get("title") for x in l if x.get("title")]`:
keep the truthy (present, nonempty) titles. -/
def truthyTitles (l : List Titled) : List String :=
  l.filterMap (fun t =>
    match t.title with
    | some s => if s = "" then none else some s
    | none => none)

/-- Lines 74-81: a question is marked correct by the system when some
marked option has a truthy `isCorrect`, or `inputValue.isCorrect` is
truthy. -/
def isMarkedCorrect (q : QuestionAttempt) : Bool :=
  (match q.markedOptions with
   | some opts => opts.any (fun o => o.isCorrect == some true)
   | none => false)
  ||
  (match q.inputValue with
   | some iv => iv.isCorrect == some true
   | none => false)

/-- Line 68: `q_data.get("questionId", {})`. -/
def questionDetailOf (q : QuestionAttempt) : QuestionDetail :=
  q.questionId.getD { chapters := [], concepts := [], level := none }

/-- Lines 83-86: the `status` column value of one row. -/
def finalStatusOf (q : QuestionAttempt) : String :=
  if strLower (q.status.getD "notAnswered") = "answered" then
    (if isMarkedCorrect q then "Correct" else "Incorrect")
  else "Unattempted"

/-- Line 72: the `difficulty` column value of one row. -/
def difficultyOf (q : QuestionAttempt) : String :=
  pyCapitalize ((questionDetailOf q).level.getD "Unknown Difficulty")

/-- Lines 67-95: build one `questions_df` row from a question attempt and
the subject inferred for its section. -/
def flattenQuestion (subj : String) (q : QuestionAttempt) : FlatQuestion :=
  { subject := subj
    chapter := (truthyTitles (questionDetailOf q).chapters).headD "Unknown Chapter"
    difficulty := difficultyOf q
    concepts := truthyTitles (questionDetailOf q).concepts
    status := finalStatusOf q
    time_taken_seconds := q.timeTaken.getD 0 }

/-- Lines 62-64: the section title used for subject inference, with the
default `"Unknown Section"` substituted when `sectionId` or its `title`
is absent. -/
def sectionTitleVal (s : Sect) : TitleVal :=
  match s.sectionId with
  | none => .str "Unknown Section"
  | some sid =>
    match sid.title with
    | .absent => .str "Unknown Section"
    | v => v

/-- Lines 62-95: flatten every question of every section. -/
def flattenSections (secs : List Sect) : List FlatQuestion :=
  (secs.map (fun s =>
    s.questions.map (flattenQuestion (extract_subject_from_title (sectionTitleVal s))))).flatten

/-- Lookup in an association list (a Python dict viewed through key
lookup; insertion order is not used by any statement below). -/
def lookupA {β : Type} : List (String × β) → String → Option β
  | [], _ => none
  | (k, v) :: r, c => if k = c then some v else lookupA r c

/-- Keys of `groupby`, first occurrence order, duplicates removed
(`pandas` sorts group keys, but no statement below depends on key
order). -/
def dedupFirstAux : List String → List String → List String
  | [], _ => []
  | x :: xs, seen => if x ∈ seen then dedupFirstAux xs seen else x :: dedupFirstAux xs (x :: seen)

/-- Duplicate-free list of keys, keeping first occurrences. -/
def dedupFirst (l : List String) : List String := dedupFirstAux l []

/-- `sum(df["status"] == st)` over a list of rows. -/
def countStatus (st : String) (l : List FlatQuestion) : Nat :=
  (l.filter (fun q => q.status = st)).length

/-- One `GroupSummary` of the output maps. -/
structure GroupSummary where
  total_questions : Nat
  correct_answers : Nat
  accuracy_percent : ℚ
  average_time_seconds : ℚ
deriving DecidableEq, Repr

/-- Lines 143-150 / 156-163: summary of one observed (nonempty) group of
rows. -/
def summarizeGroup (g : List FlatQuestion) : GroupSummary :=
  let total := g.length
  let correct := countStatus "Correct" g
  { total_questions := total
    correct_answers := correct
    accuracy_percent := round2 (if 0 < total then ((correct : ℚ) / (total : ℚ)) * 100 else 0)
    average_time_seconds := round2 (if 0 < total then qmean (g.map (·.time_taken_seconds)) else 0) }

/-- Lines 139-163: group rows by a key, skipping the sentinel key; the
outer guard models `if <col> in columns and not questions_df.empty`. -/
def group_performance (key : FlatQuestion → String) (skip : String)
    (qs : List FlatQuestion) : List (String × GroupSummary) :=
  if qs.isEmpty then []
  else (dedupFirst (qs.map key)).filterMap (fun k =>
    if k = skip then none
    else some (k, summarizeGroup (qs.filter (fun q => key q = k))))

/-- Lines 139-150: `chapter_performance`. -/
def chapter_performance_of (qs : List FlatQuestion) : List (String × GroupSummary) :=
  group_performance (fun q => q.chapter) "Unknown Chapter" qs

/-- Lines 152-163: `difficulty_performance`. -/
def difficulty_performance_of (qs : List FlatQuestion) : List (String × GroupSummary) :=
  group_performance (fun q => q.difficulty) "Unknown Difficulty" qs

/-- Line 122: the fixed expected-question-count table. -/
def EXPECTED_QUESTIONS_PER_SUBJECT : List (String × Nat) :=
  [("Physics", 25), ("Chemistry", 25), ("Maths", 25)]

/-- Lines 126-137, body of the loop for one canonical subject.  When the
subject has no observed rows the source reads the `status` column of the
column-free `pd.DataFrame()` placeholder, and `pandas` raises `KeyError`;
that uncaught exception is modelled by the `.error` branch. -/
def summarizeSubject (qs : List FlatQuestion) (subj : String) : Except String GroupSummary :=
  let g := qs.filter (fun q => q.subject = subj)
  if g.isEmpty then .error "KeyError: status"
  else
    let total_expected := (lookupA EXPECTED_QUESTIONS_PER_SUBJECT subj).getD g.length
    let correct := countStatus "Correct" g
    .ok { total_questions := total_expected
          correct_answers := correct
          accuracy_percent :=
            round2 (if total_expected ≠ 0 then ((correct : ℚ) / (total_expected : ℚ)) * 100 else 0)
          average_time_seconds :=
            round2 (if g.isEmpty then 0 else qmean (g.map (·.time_taken_seconds))) }

/-- Lines 121-137: `subject_performance`; only the three canonical
subjects are iterated.  The guard models
`if subject in columns and not questions_df.empty`. -/
def subject_performance_of (qs : List FlatQuestion) :
    Except String (List (String × GroupSummary)) :=
  if qs.isEmpty then .ok []
  else do
    let p ← summarizeSubject qs "Physics"
    let c ← summarizeSubject qs "Chemistry"
    let m ← summarizeSubject qs "Maths"
    .ok [("Physics", p), ("Chemistry", c), ("Maths", m)]

/-- Accumulator entry of the concept aggregation (line 165). -/
structure ConceptAgg where
  correct : Nat
  total : Nat
  time_taken_list : List ℚ
deriving DecidableEq, Repr

/-- Lines 171-174: account one occurrence of concept `c` of question `q`
in the `defaultdict`, preserving insertion order. -/
def bumpConcept : List (String × ConceptAgg) → String → FlatQuestion → List (String × ConceptAgg)
  | [], c, q =>
    [(c, { correct := if q.status = "Correct" then 1 else 0
           total := 1
           time_taken_list := [q.time_taken_seconds] })]
  | (k, v) :: rest, c, q =>
    if k = c then
      (k, { correct := v.correct + (if q.status = "Correct" then 1 else 0)
            total := v.total + 1
            time_taken_list := v.time_taken_list ++ [q.time_taken_seconds] }) :: rest
    else (k, v) :: bumpConcept rest c q

/-- Lines 169-174: the inner loop over the concept list of one row;
falsy (empty) concept entries are skipped. -/
def conceptStep (acc : List (String × ConceptAgg)) (q : FlatQuestion) :
    List (String × ConceptAgg) :=
  q.concepts.foldl (fun a c => if c = "" then a else bumpConcept a c q) acc

/-- Lines 168-174: the outer loop over all rows. -/
def conceptAggAll (qs : List FlatQuestion) : List (String × ConceptAgg) :=
  qs.foldl conceptStep []

/-- Lines 176-184: the summary built from one accumulator entry; line
179 divides by `len(time_taken_list)` unconditionally (every entry is
created with one element, so the list is never empty). -/
def conceptSummaryOf (v : ConceptAgg) : GroupSummary :=
  { total_questions := v.total
    correct_answers := v.correct
    accuracy_percent :=
      round2 (if v.total ≠ 0 then ((v.correct : ℚ) / (v.total : ℚ)) * 100 else 0)
    average_time_seconds := round2 (qmean v.time_taken_list) }

/-- Lines 165-184: `concept_performance`. -/
def concept_performance_of (qs : List FlatQuestion) : List (String × GroupSummary) :=
  if qs.isEmpty then []
  else (conceptAggAll qs).map (fun p => (p.1, conceptSummaryOf p.2))

/-- Lines 186-193: `time_accuracy_summary`; `none` models the empty dict
produced when `questions_df` is empty, and the `pd.notna` guard turns the
undefined mean of an empty subgroup into 0. -/
def time_accuracy_summary_of (qs : List FlatQuestion) : Option (ℚ × ℚ) :=
  if qs.isEmpty then none
  else
    let ct := (qs.filter (fun q => q.status = "Correct")).map (·.time_taken_seconds)
    let it := (qs.filter (fun q => q.status = "Incorrect")).map (·.time_taken_seconds)
    some ((if ct.isEmpty then 0 else round2 (qmean ct)),
          (if it.isEmpty then 0 else round2 (qmean it)))

/-- Lines 108-119: `overall_summary` of the main path. -/
structure OverallSummary where
  score : Option ℚ
  accuracy_percent : ℚ
  correct_answers : Nat
  incorrect_answers : Nat
  unattempted_answers : Nat
  attempted_answers : Nat
  total_questions_in_test : Nat
  official_total_questions_header : Nat
  total_marks_in_test : Option ℚ
  time_taken_seconds : Option ℚ
deriving DecidableEq, Repr

/-- The dictionary returned by `process_student_data`;
`overall_summary = none` and `time_accuracy_summary = none` model the
empty dicts of the degenerate branch (lines 54-60). -/
structure AnalysisResult where
  student_name : String
  test_name : String
  overall_summary : Option OverallSummary
  subject_performance : List (String × GroupSummary)
  chapter_performance : List (String × GroupSummary)
  difficulty_performance : List (String × GroupSummary)
  concept_performance : List (String × GroupSummary)
  time_accuracy_summary : Option (ℚ × ℚ)
  raw_questions : List FlatQuestion
deriving DecidableEq, Repr

/-- Line 48: the displayed test name built from the `test` metadata. -/
def testNameOf (t : Option TestInfo) : String :=
  "QPT Analysis (Total Marks: " ++
    (match t with
     | some ti =>
       (match ti.totalMarks with
        | some m => toString m
        | none => "N/A")
     | none => "N/A") ++ ")"

/-- Lines 54-60: the minimal result of the degenerate branch. -/
def minimalResult (sname tname : String) : AnalysisResult :=
  { student_name := sname
    test_name := tname
    overall_summary := none
    subject_performance := []
    chapter_performance := []
    difficulty_performance := []
    concept_performance := []
    time_accuracy_summary := none
    raw_questions := [] }

/-- `process_student_data` (lines 42-205).
`.ok none` models `return None` on a falsy record; `.error` models an
uncaught `KeyError` from `pandas`: reading the `status` column of an
empty, column-free `questions_df` (line 100) or of the empty placeholder
for a canonical subject with no observed rows (line 129). -/
def process_student_data (data : Option RawRecord) : Except String (Option AnalysisResult) :=
  match data with
  | none => .ok none
  | some d =>
    let tname := testNameOf d.test
    let sname := d.student_name.getD "Valued Student"
    match d.sections with
    | .absent => .ok (some (minimalResult sname tname))
    | .notList => .ok (some (minimalResult sname tname))
    | .list secs =>
      let qs := flattenSections secs
      if qs.isEmpty then .error "KeyError: status"
      else
        match subject_performance_of qs with
        | .error e => .error e
        | .ok sp =>
          let tinfo := d.test.getD { totalMarks := none, totalQuestions := none }
          .ok (some
            { student_name := sname
              test_name := tname
              overall_summary := some
                { score := d.totalMarkScored
                  accuracy_percent :=
                    round2 (if 0 < qs.length then
                      ((countStatus "Correct" qs : ℚ) / (qs.length : ℚ)) * 100 else 0)
                  correct_answers := countStatus "Correct" qs
                  incorrect_answers := countStatus "Incorrect" qs
                  unattempted_answers := countStatus "Unattempted" qs
                  attempted_answers := countStatus "Correct" qs + countStatus "Incorrect" qs
                  total_questions_in_test := qs.length
                  official_total_questions_header := tinfo.totalQuestions.getD qs.length
                  total_marks_in_test := tinfo.totalMarks
                  time_taken_seconds := d.totalTimeTaken }
              subject_performance := sp
              chapter_performance := chapter_performance_of qs
              difficulty_performance := difficulty_performance_of qs
              concept_performance := concept_performance_of qs
              time_accuracy_summary := time_accuracy_summary_of qs
              raw_questions := qs })

/-- The analysis result actually returned, `none` when the call returned
`None` or raised. -/
def resultOf (d : RawRecord) : Option AnalysisResult :=
  match process_student_data (some d) with
  | .ok r => r
  | .error _ => none

/-- A marked option flagged correct. -/
def optCorrect : MarkedOption := { isCorrect := some true }

/-- An answered, correctly marked question with chapter `Kinematics`,
concept `Vectors`, level `easy` and 30 seconds of time. -/
def qPhys1 : QuestionAttempt :=
  { questionId := some { chapters := [{ title := some "Kinematics" }]
                         concepts := [{ title := some "Vectors" }]
                         level := some "easy" }
    markedOptions := some [optCorrect]
    inputValue := none
    status := some "answered"
    timeTaken := some 30 }

/-- An answered, correctly marked question with `status` capitalised as
`"Answered"`. -/
def qCapsAnswered : QuestionAttempt :=
  { questionId := none
    markedOptions := some [optCorrect]
    inputValue := none
    status := some "Answered"
    timeTaken := some 30 }

/-- A question whose difficulty label is the all-caps string `MEDIUM`. -/
def qLevelCaps : QuestionAttempt :=
  { questionId := some { chapters := [], concepts := [], level := some "MEDIUM" }
    markedOptions := none
    inputValue := none
    status := none
    timeTaken := none }

/-- A question with every optional field absent. -/
def qBare : QuestionAttempt :=
  { questionId := none
    markedOptions := none
    inputValue := none
    status := none
    timeTaken := none }

/-- A record with a single Physics section holding one question: the
scenario of the specification, section 8. -/
def recPhysicsOnly : RawRecord :=
  { test := none
    student_name := some "A"
    totalMarkScored := none
    totalTimeTaken := none
    sections := .list [{ sectionId := some { title := .str "Physics Test" }
                         questions := [qPhys1] }] }

/-- A record with a single Chemistry section holding one question. -/
def recChemistryOnly : RawRecord :=
  { test := none
    student_name := some "A"
    totalMarkScored := none
    totalTimeTaken := none
    sections := .list [{ sectionId := some { title := .str "Chemistry Section 1" }
                         questions := [qPhys1] }] }

/-- A non-empty record with no `sections` field. -/
def recNoSections : RawRecord :=
  { test := none
    student_name := some "A"
    totalMarkScored := none
    totalTimeTaken := none
    sections := .absent }

/-- A non-empty record whose `sections` is present but an empty list. -/
def recEmptySections : RawRecord :=
  { test := none
    student_name := some "B"
    totalMarkScored := none
    totalTimeTaken := none
    sections := .list [] }

/-- A non-empty record whose `sections` is present but not a list. -/
def recSectionsNotList : RawRecord :=
  { test := none
    student_name := some "C"
    totalMarkScored := none
    totalTimeTaken := none
    sections := .notList }

/-- The condition of the claim: some entry of `markedOptions` has
`isCorrect` true, or `inputValue.isCorrect` is true. -/
def MarkedCorrect (q : QuestionAttempt) : Prop :=
  (∃ l, q.markedOptions = some l ∧ ∃ o ∈ l, o.isCorrect = some true)
  ∨ (∃ iv, q.inputValue = some iv ∧ iv.isCorrect = some true)

/-- An answered, correctly marked question with no `questionId` at all:
chapter, concepts and level are all missing. -/
def qNoMeta : QuestionAttempt :=
  { questionId := none
    markedOptions := some [optCorrect]
    inputValue := none
    status := some "answered"
    timeTaken := some 30 }

/-- A record with one such defaulted question per canonical subject. -/
def recDefaulted : RawRecord :=
  { test := none
    student_name := some "A"
    totalMarkScored := none
    totalTimeTaken := none
    sections :=
      .list [{ sectionId := some { title := .str "Physics" }, questions := [qNoMeta] },
             { sectionId := some { title := .str "Chemistry" }, questions := [qNoMeta] },
             { sectionId := some { title := .str "Maths" }, questions := [qNoMeta] }] }

/-- A non-empty degenerate record used by the C9 counterexample. -/
def recC9Degenerate : RawRecord :=
  { test := none
    student_name := some "D"
    totalMarkScored := none
    totalTimeTaken := none
    sections := .absent }

/-- A record with one question per canonical subject: Physics answered
correct in 30 seconds, Chemistry and Maths untouched. -/
def recTimeAcc : RawRecord :=
  { test := none
    student_name := some "E"
    totalMarkScored := none
    totalTimeTaken := none
    sections :=
      .list [{ sectionId := some { title := .str "Physics" }, questions := [qPhys1] },
             { sectionId := some { title := .str "Chemistry" }, questions := [qBare] },
             { sectionId := some { title := .str "Maths" }, questions := [qBare] }] }

/-- The analysis result the engine returns on `recTimeAcc`. -/
def resTimeAcc : AnalysisResult := (resultOf recTimeAcc).getD (minimalResult "" "")

/-- `qPhys1` with the `timeTaken` field absent. -/
def qPhysNoTime : QuestionAttempt :=
  { questionId := some { chapters := [{ title := some "Kinematics" }]
                         concepts := [{ title := some "Vectors" }]
                         level := some "easy" }
    markedOptions := some [optCorrect]
    inputValue := none
    status := some "answered"
    timeTaken := none }

/-- An answered correct Chemistry question, 10 seconds. -/
def qChem10 : QuestionAttempt :=
  { questionId := some { chapters := [{ title := some "Organic" }]
                         concepts := [{ title := some "Bonds" }]
                         level := some "easy" }
    markedOptions := some [optCorrect]
    inputValue := none
    status := some "answered"
    timeTaken := some 10 }

/-- An answered correct Maths question, 20 seconds. -/
def qMaths20 : QuestionAttempt :=
  { questionId := some { chapters := [{ title := some "Algebra" }]
                         concepts := [{ title := some "Sets" }]
                         level := some "easy" }
    markedOptions := some [optCorrect]
    inputValue := none
    status := some "answered"
    timeTaken := some 20 }

/-- A record where the Kinematics chapter, the Vectors concept and the
Physics subject hold exactly one timed question (30 s) and one question
with `timeTaken` absent. -/
def recTimes : RawRecord :=
  { test := none
    student_name := some "F"
    totalMarkScored := none
    totalTimeTaken := none
    sections :=
      .list [{ sectionId := some { title := .str "Physics" }
               questions := [qPhys1, qPhysNoTime] },
             { sectionId := some { title := .str "Chemistry" }, questions := [qChem10] },
             { sectionId := some { title := .str "Maths" }, questions := [qMaths20] }] }

/-- Declarative whole-word containment: `s` splits as `pre ++ w ++ post`
with no word character adjacent to `w` on either side. -/
def ContainsWordL (w s : List Char) : Prop :=
  ∃ pre post, s = pre ++ w ++ post
    ∧ (∀ c, pre.getLast? = some c → isWordChar c = false)
    ∧ (∀ c, post.head? = some c → isWordChar c = false)

/-- Non-empty concept entries of one row (the aggregation loop skips
falsy entries). -/
def conceptEntries (q : FlatQuestion) : List String :=
  q.concepts.filter (fun c => c ≠ "")

/-- Occurrences of concept `c` among the non-empty entries of one row. -/
def conceptOcc (c : String) (q : FlatQuestion) : Nat :=
  (conceptEntries q).count c

/-- Occurrences of concept `c` across all rows. -/
def conceptTotal (c : String) (qs : List FlatQuestion) : Nat :=
  (qs.map (conceptOcc c)).sum

/-- Occurrences of concept `c` across rows with status `Correct`. -/
def conceptCorrect (c : String) (qs : List FlatQuestion) : Nat :=
  (qs.map (fun q => if q.status = "Correct" then conceptOcc c q else 0)).sum

/-- The time values accumulated for concept `c`, one copy per
occurrence, in row order. -/
def conceptTimes (c : String) (qs : List FlatQuestion) : List ℚ :=
  (qs.map (fun q => List.replicate (conceptOcc c q) q.time_taken_seconds)).flatten

/-- 1 when the row is `Correct`, else 0. -/
def indCorrect (q : FlatQuestion) : Nat := if q.status = "Correct" then 1 else 0

/-- Account one more occurrence of a question in an optional accumulator
entry. -/
def extendAgg : Option ConceptAgg → FlatQuestion → ConceptAgg
  | none, q => { correct := indCorrect q, total := 1, time_taken_list := [q.time_taken_seconds] }
  | some v, q => { correct := v.correct + indCorrect q, total := v.total + 1,
                   time_taken_list := v.time_taken_list ++ [q.time_taken_seconds] }

/-- Account `n` occurrences. -/
def extendAggN (o : Option ConceptAgg) (q : FlatQuestion) : Nat → Option ConceptAgg
  | 0 => o
  | n + 1 => some (extendAgg (extendAggN o q n) q)

/-- Account, row by row, every occurrence of concept `c`. -/
def extendAggQs (o : Option ConceptAgg) (c : String) : List FlatQuestion → Option ConceptAgg
  | [] => o
  | q :: qs => extendAggQs (extendAggN o q (conceptOcc c q)) c qs

/-- Merge an aggregate into an optional one. -/
def mergeAgg : Option ConceptAgg → ConceptAgg → ConceptAgg
  | none, v => v
  | some u, v => { correct := u.correct + v.correct, total := u.total + v.total,
                   time_taken_list := u.time_taken_list ++ v.time_taken_list }

/-- Two flat questions, the first carrying two concepts: concept `A`
collects both questions, concept `B` only the first, so the group totals
sum to 3 while only 2 questions exist. -/
def fqConceptsA : FlatQuestion :=
  { subject := "Physics", chapter := "K", difficulty := "Easy",
    concepts := ["A", "B"], status := "Correct", time_taken_seconds := 30 }

/-- The second demo question, carrying concept `A` only. -/
def fqConceptsB : FlatQuestion :=
  { subject := "Physics", chapter := "K", difficulty := "Easy",
    concepts := ["A"], status := "Incorrect", time_taken_seconds := 10 }

/-- The two-question demo row list. -/
def demoConcepts : List FlatQuestion := [fqConceptsA, fqConceptsB]

/-- The output entry of concept `A` on the demo list. -/
def gDemoA : GroupSummary :=
  (lookupA (concept_performance_of demoConcepts) "A").getD
    { total_questions := 0, correct_answers := 0, accuracy_percent := 0,
      average_time_seconds := 0 }

/-! ### Theorems -/

/-- `ratFloor` of an integer is that integer. -/
theorem ratFloor_intCast (m : ℤ) : ratFloor (m : ℚ) = m := by
  simp [ratFloor, Rat.intCast_num, Rat.intCast_den]

/-- `roundHalfEven` of an integer is that integer. -/
theorem roundHalfEven_intCast (m : ℤ) : roundHalfEven (m : ℚ) = m := by
  simp [roundHalfEven, ratFloor_intCast]

/-- `round(x, 2)` of a value with at most two decimal places of the form
`m / 100` is itself. -/
theorem round2_div100 (m : ℤ) : round2 ((m : ℚ) / 100) = (m : ℚ) / 100 := by
  have h : ((m : ℚ) / 100) * 100 = (m : ℚ) := by
    field_simp
  rw [round2, h, roundHalfEven_intCast]

/-- `round(x, 2)` of an integer is that integer. -/
theorem round2_intCast (m : ℤ) : round2 (m : ℚ) = m := by
  have h : ((m * 100 : ℤ) : ℚ) / 100 = (m : ℚ) := by
    push_cast
    field_simp
  have := round2_div100 (m * 100)
  rwa [h] at this

/-- The boolean of lines 74-81 agrees with the declarative condition. -/
theorem isMarkedCorrect_iff (q : QuestionAttempt) :
    isMarkedCorrect q = true ↔ MarkedCorrect q := by
  unfold isMarkedCorrect MarkedCorrect
  cases hm : q.markedOptions with
  | none =>
    cases hi : q.inputValue with
    | none => simp
    | some iv => simp [List.any_eq_true]
  | some l =>
    cases hi : q.inputValue with
    | none => simp [List.any_eq_true]
    | some iv => simp [List.any_eq_true]

/-- Claim C1, as amended: every flattened question has status `Correct`,
`Incorrect` or `Unattempted`; the status is `Unattempted` unless the
lowercased source status equals `answered`; and when the lowercased
source status equals `answered` the status is `Correct` iff some marked
option or the input value is flagged correct, else `Incorrect`. -/
theorem claim_C1_status (subj : String) (q : QuestionAttempt) :
    ((flattenQuestion subj q).status = "Correct"
      ∨ (flattenQuestion subj q).status = "Incorrect"
      ∨ (flattenQuestion subj q).status = "Unattempted")
  ∧ (strLower (q.status.getD "notAnswered") ≠ "answered" →
      (flattenQuestion subj q).status = "Unattempted")
  ∧ (strLower (q.status.getD "notAnswered") = "answered" →
      (((flattenQuestion subj q).status = "Correct" ↔ MarkedCorrect q)
        ∧ (¬ MarkedCorrect q → (flattenQuestion subj q).status = "Incorrect"))) := by
  have hs : (flattenQuestion subj q).status = finalStatusOf q := rfl
  rw [hs]
  unfold finalStatusOf
  by_cases h : strLower (q.status.getD "notAnswered") = "answered"
  · rw [if_pos h]
    by_cases hm : isMarkedCorrect q = true
    · have hmc : MarkedCorrect q := (isMarkedCorrect_iff q).mp hm
      rw [hm]
      refine ⟨Or.inl (by simp), fun hn => absurd h hn, fun _ => ⟨?_, ?_⟩⟩
      · simp [hmc]
      · intro hn
        exact absurd hmc hn
    · have hb : isMarkedCorrect q = false := by
        cases hb : isMarkedCorrect q
        · rfl
        · exact absurd hb hm
      have hmc : ¬ MarkedCorrect q := by
        intro hc
        exact hm ((isMarkedCorrect_iff q).mpr hc)
      rw [hb]
      refine ⟨Or.inr (Or.inl (by simp)), fun hn => absurd h hn, fun _ => ⟨?_, ?_⟩⟩
      · constructor
        · intro hco
          simp at hco
        · intro hc
          exact absurd hc hmc
      · intro _
        simp
  · rw [if_neg h]
    refine ⟨Or.inr (Or.inr rfl), fun _ => rfl, fun ha => absurd ha h⟩

/-- Witness for C1 at a concrete input: a question whose status field is
absent is `Unattempted`. -/
theorem claim_C1_witness : (flattenQuestion "Physics" qBare).status = "Unattempted" :=
  (claim_C1_status "Physics" qBare).2.1 (by decide)

/-- Counterexample to C1 as stated: the source lowercases the status, so
a question whose status field is the string `Answered` (not `answered`)
is still graded, here `Correct`, where the claim as stated demands
`Unattempted`. -/
theorem claim_C1_counterexample :
    qCapsAnswered.status = some "Answered"
  ∧ "Answered" ≠ "answered"
  ∧ (flattenQuestion "Physics" qCapsAnswered).status = "Correct"
  ∧ "Correct" ≠ "Unattempted" :=
  ⟨rfl, by decide, rfl, by decide⟩

/-- Claim C3, as amended: a missing `level` yields the label
`Unknown difficulty` (the default string itself passes through
`str.capitalize`, which lowercases its tail), and a present `level`
yields the label with the first character uppercased and every remaining
character lowercased. -/
theorem claim_C3_difficulty (subj : String) (q : QuestionAttempt) :
    ((questionDetailOf q).level = none →
      (flattenQuestion subj q).difficulty = "Unknown difficulty")
  ∧ (∀ s : String, (questionDetailOf q).level = some s →
      ((flattenQuestion subj q).difficulty).data =
        (match s.data with
         | [] => []
         | c :: cs => c.toUpper :: cs.map Char.toLower)) := by
  have hd : (flattenQuestion subj q).difficulty = difficultyOf q := rfl
  constructor
  · intro h
    rw [hd]
    unfold difficultyOf
    rw [h]
    rfl
  · intro s h
    rw [hd]
    unfold difficultyOf
    rw [h]
    unfold pyCapitalize
    simp only [Option.getD_some]
    cases hs : s.data with
    | nil => rfl
    | cons c cs => rfl

/-- Witness for C3 at a concrete input: a missing level yields
`Unknown difficulty`. -/
theorem claim_C3_witness :
    (flattenQuestion "Physics" qBare).difficulty = "Unknown difficulty" :=
  (claim_C3_difficulty "Physics" qBare).1 rfl

/-- Counterexample to C3 as stated: `str.capitalize` lowercases the tail,
so level `MEDIUM` becomes `Medium`, not `MEDIUM`, and a missing level
becomes `Unknown difficulty`, not `Unknown Difficulty`. -/
theorem claim_C3_counterexample :
    (flattenQuestion "Physics" qLevelCaps).difficulty = "Medium"
  ∧ "Medium" ≠ "MEDIUM"
  ∧ (flattenQuestion "Physics" qBare).difficulty = "Unknown difficulty"
  ∧ "Unknown difficulty" ≠ "Unknown Difficulty" :=
  ⟨rfl, by decide, rfl, by decide⟩

/-- Claim C2 as a code bug: on a record holding only Physics questions
the engine raises (`KeyError`) instead of reporting Chemistry and Maths
with 25 expected questions and zero correct answers, because the source
reads the `status` column of the column-free placeholder frame for a
canonical subject with no observed questions.  When every canonical
subject is observed, the map does hold exactly the three canonical
subjects with `total_questions = 25` each. -/
theorem claim_C2_bug :
    process_student_data (some recPhysicsOnly) = .error "KeyError: status"
  ∧ (resultOf recTimes).map (fun r => r.subject_performance.map Prod.fst) =
      some ["Physics", "Chemistry", "Maths"]
  ∧ (resultOf recTimes).map
      (fun r => r.subject_performance.map (fun p => p.2.total_questions)) =
      some [25, 25, 25] :=
  ⟨rfl, rfl, rfl⟩

/-- Claim C6: a falsy record yields `None`; a record without `sections`
yields the minimal result; but, against the claim, a non-degenerate
irregular input (here: questions present, yet no Physics or Maths
question) aborts the engine with an uncaught `KeyError`. -/
theorem claim_C6_bug :
    process_student_data none = .ok none
  ∧ process_student_data (some recNoSections) =
      .ok (some (minimalResult "A" "QPT Analysis (Total Marks: N/A)"))
  ∧ process_student_data (some recSectionsNotList) =
      .ok (some (minimalResult "C" "QPT Analysis (Total Marks: N/A)"))
  ∧ process_student_data (some recChemistryOnly) = .error "KeyError: status" :=
  ⟨rfl, rfl, rfl, rfl⟩

/-- Claim C7 as a code bug: on a record whose flattened question count is
zero (an empty `sections` list) the engine raises `KeyError` at the line
`sum(questions_df["status"] == "Correct")` before the guarded accuracy
computation is ever reached, instead of reporting accuracy 0. -/
theorem claim_C7_bug :
    process_student_data (some recEmptySections) = .error "KeyError: status" := rfl

/-- Claim C4 as a code bug: questions whose chapter defaulted are indeed
excluded from the chapter map, but questions whose difficulty defaulted
are not excluded from the difficulty map: the default string passes
through `str.capitalize` and becomes `Unknown difficulty`, which the
filter `diff_level == "Unknown Difficulty"` never matches, so the
missing-data artifact appears as a group. -/
theorem claim_C4_bug :
    (resultOf recDefaulted).map (fun r => r.chapter_performance.map Prod.fst) = some []
  ∧ (resultOf recDefaulted).map (fun r => r.difficulty_performance.map Prod.fst) =
      some ["Unknown difficulty"]
  ∧ (resultOf recDefaulted).map
      (fun r => (lookupA r.difficulty_performance "Unknown Difficulty").isSome) = some false :=
  ⟨rfl, rfl, rfl⟩

/-- Counterexample to C9 as stated: for a record with no flattened
questions the summary is the empty dict (`none`), so neither average
field exists, where the claim as stated demands fields equal to 0. -/
theorem claim_C9_counterexample :
    (resultOf recC9Degenerate).map (fun r => r.time_accuracy_summary) = some none := rfl

/-- Claim C9, as amended: whenever the engine returns a result whose
time-accuracy summary is populated (equivalently, at least one flattened
question exists), the first field is the rounded mean time over questions
with status `Correct` and the second over status `Incorrect`, each equal
to 0 when its subgroup is empty. -/
theorem claim_C9_time_accuracy (r : RawRecord) (res : AnalysisResult) (p : ℚ × ℚ)
    (hres : process_student_data (some r) = .ok (some res))
    (hp : res.time_accuracy_summary = some p) :
    p.1 = (if ((res.raw_questions.filter (fun q => q.status = "Correct")).map
                (fun q => q.time_taken_seconds)).isEmpty
           then 0
           else round2 (qmean ((res.raw_questions.filter (fun q => q.status = "Correct")).map
                (fun q => q.time_taken_seconds))))
  ∧ p.2 = (if ((res.raw_questions.filter (fun q => q.status = "Incorrect")).map
                (fun q => q.time_taken_seconds)).isEmpty
           then 0
           else round2 (qmean ((res.raw_questions.filter (fun q => q.status = "Incorrect")).map
                (fun q => q.time_taken_seconds)))) := by
  obtain ⟨t, sn, tms, ttt, secs⟩ := r
  cases secs with
  | absent =>
    rw [show process_student_data (some ⟨t, sn, tms, ttt, .absent⟩) =
      .ok (some (minimalResult (sn.getD "Valued Student") (testNameOf t))) from rfl] at hres
    injection hres with hres
    injection hres with hres
    rw [← hres] at hp
    cases hp
  | notList =>
    rw [show process_student_data (some ⟨t, sn, tms, ttt, .notList⟩) =
      .ok (some (minimalResult (sn.getD "Valued Student") (testNameOf t))) from rfl] at hres
    injection hres with hres
    injection hres with hres
    rw [← hres] at hp
    cases hp
  | list secs =>
    unfold process_student_data at hres
    by_cases hq : (flattenSections secs).isEmpty
    · simp only [hq, if_true] at hres
      cases hres
    · simp only [hq, if_false] at hres
      cases hsp : subject_performance_of (flattenSections secs) with
      | error e =>
        rw [hsp] at hres
        cases hres
      | ok sp =>
        rw [hsp] at hres
        injection hres with hres
        injection hres with hres
        rw [← hres] at hp
        rw [← hres]
        simp only [time_accuracy_summary_of, hq, if_false] at hp
        injection hp with hp
        rw [← hp]
        simp only [time_accuracy_summary_of]
        constructor <;> trivial

/-- Witness for C9 at a concrete input: the correct subgroup of
`recTimeAcc` holds the single time 30, the incorrect subgroup is empty
and its field is 0. -/
theorem claim_C9_witness :
    ((round2 (qmean [(30 : ℚ)]), (0 : ℚ)) : ℚ × ℚ).1 =
      (if ((resTimeAcc.raw_questions.filter (fun q => q.status = "Correct")).map
            (fun q => q.time_taken_seconds)).isEmpty
       then 0
       else round2 (qmean ((resTimeAcc.raw_questions.filter (fun q => q.status = "Correct")).map
            (fun q => q.time_taken_seconds)))) :=
  (claim_C9_time_accuracy recTimeAcc resTimeAcc (round2 (qmean [30]), 0) rfl rfl).1

/-- Claim C10: a question with `timeTaken` absent gets time 0, and that 0
enters every average as a data point: on `recTimes` the observed times
are 30 (with one absent, so 0), 10 and 20, and every average over a group
holding the defaulted question equals the mean with the 0 included
(15 for the pair 30, 0 and for the four 30, 0, 10, 20), not the mean of
only the present values (30). -/
theorem claim_C10_time_default :
    (∀ (subj : String) (q : QuestionAttempt), q.timeTaken = none →
        (flattenQuestion subj q).time_taken_seconds = 0)
  ∧ (resultOf recTimes).bind
      (fun r => (lookupA r.chapter_performance "Kinematics").map
        (fun g => g.average_time_seconds)) = some 15
  ∧ (resultOf recTimes).bind
      (fun r => (lookupA r.subject_performance "Physics").map
        (fun g => g.average_time_seconds)) = some 15
  ∧ (resultOf recTimes).bind
      (fun r => (lookupA r.difficulty_performance "Easy").map
        (fun g => g.average_time_seconds)) = some 15
  ∧ (resultOf recTimes).bind
      (fun r => (lookupA r.concept_performance "Vectors").map
        (fun g => g.average_time_seconds)) = some 15
  ∧ (resultOf recTimes).bind (fun r => r.time_accuracy_summary.map Prod.fst) = some 15
  ∧ (15 : ℚ) ≠ 30 := by
  have h1 : round2 (qmean [(30 : ℚ), 0]) = 15 := by
    have hm : qmean [(30 : ℚ), 0] = ((15 : ℤ) : ℚ) := by norm_num [qmean]
    rw [hm, round2_intCast]
    norm_num
  have h2 : round2 (qmean [(30 : ℚ), 0, 10, 20]) = 15 := by
    have hm : qmean [(30 : ℚ), 0, 10, 20] = ((15 : ℤ) : ℚ) := by norm_num [qmean]
    rw [hm, round2_intCast]
    norm_num
  refine ⟨?_, ?_, ?_, ?_, ?_, ?_, by norm_num⟩
  · intro subj q h
    have : (flattenQuestion subj q).time_taken_seconds = q.timeTaken.getD 0 := rfl
    rw [this, h]
    rfl
  · rw [← h1]
    rfl
  · rw [← h1]
    rfl
  · rw [← h2]
    rfl
  · rw [← h1]
    rfl
  · rw [← h2]
    rfl

/-- Witness for C10 at a concrete input: the question with absent
`timeTaken` flattens to time 0. -/
theorem claim_C10_witness :
    (flattenQuestion "Physics" qPhysNoTime).time_taken_seconds = 0 :=
  claim_C10_time_default.1 "Physics" qPhysNoTime rfl

/-- The prefix matcher agrees with its declarative reading. -/
theorem matchesAt_iff (w : List Char) : ∀ s : List Char,
    matchesAt w s = true ↔
      ∃ post, s = w ++ post ∧ ∀ c, post.head? = some c → isWordChar c = false := by
  induction w with
  | nil =>
    intro s
    cases s with
    | nil =>
      constructor
      · intro _
        exact ⟨[], rfl, fun c hc => by cases hc⟩
      · intro _
        rfl
    | cons c s' =>
      constructor
      · intro h
        refine ⟨c :: s', rfl, fun d hd => ?_⟩
        have hd' : d = c := by simpa using hd.symm
        subst hd'
        simpa [matchesAt] using h
      · rintro ⟨post, hpost, hb⟩
        simp only [List.nil_append] at hpost
        subst hpost
        simpa [matchesAt] using hb c rfl
  | cons a w' ih =>
    intro s
    cases s with
    | nil =>
      constructor
      · intro h
        cases h
      · rintro ⟨post, hpost, -⟩
        rw [List.cons_append] at hpost
        cases hpost
    | cons c s' =>
      constructor
      · intro h
        simp only [matchesAt, Bool.and_eq_true, beq_iff_eq] at h
        obtain ⟨hac, hm⟩ := h
        obtain ⟨post, hp, hb⟩ := (ih s').mp hm
        subst hac
        exact ⟨post, by rw [List.cons_append, hp], hb⟩
      · rintro ⟨post, hp, hb⟩
        rw [List.cons_append] at hp
        injection hp with h1 h2
        subst h1
        have hm := (ih s').mpr ⟨post, h2, hb⟩
        simp [matchesAt, hm]

/-- The scanner agrees with its declarative reading; `prev` constrains
only a match at the very start. -/
theorem scanWord_iff (w : List Char) : ∀ (s : List Char) (prev : Bool),
    scanWord w prev s = true ↔
      ∃ pre post, s = pre ++ w ++ post
        ∧ (pre = [] → prev = false)
        ∧ (∀ c, pre.getLast? = some c → isWordChar c = false)
        ∧ (∀ c, post.head? = some c → isWordChar c = false) := by
  intro s
  induction s with
  | nil =>
    intro prev
    cases w with
    | nil =>
      constructor
      · intro h
        simp only [scanWord, matchesAt, Bool.and_true, Bool.not_eq_true'] at h
        refine ⟨[], [], rfl, fun _ => h, ?_, ?_⟩ <;>
          · intro c hc
            simp at hc
      · rintro ⟨pre, post, hp, h1, -, -⟩
        have hpre : pre = [] ∧ post = [] := by
          constructor
          · cases pre with
            | nil => rfl
            | cons x xs => rw [List.cons_append] at hp; cases hp
          · cases pre with
            | nil =>
              simpa using hp.symm
            | cons x xs => rw [List.cons_append] at hp; cases hp
        simp [scanWord, matchesAt, h1 hpre.1]
    | cons a w' =>
      constructor
      · intro h
        simp only [scanWord, matchesAt, Bool.and_false, Bool.not_eq_true'] at h
        cases h
      · rintro ⟨pre, post, hp, -, -, -⟩
        rcases pre with _ | ⟨x, xs⟩
        · rw [List.nil_append, List.cons_append] at hp
          cases hp
        · rw [List.cons_append] at hp
          cases hp
  | cons c s' ih =>
    intro prev
    constructor
    · intro h
      simp only [scanWord, Bool.or_eq_true, Bool.and_eq_true, Bool.not_eq_true'] at h
      rcases h with ⟨hprev, hm⟩ | hscan
      · obtain ⟨post, hp, hb⟩ := (matchesAt_iff w (c :: s')).mp hm
        refine ⟨[], post, by simpa using hp, fun _ => hprev, ?_, hb⟩
        intro d hd
        simp at hd
      · obtain ⟨pre', post, hp, h1, h2, h3⟩ := (ih (isWordChar c)).mp hscan
        refine ⟨c :: pre', post, by simp [hp], ?_, ?_, h3⟩
        · intro hcon
          cases hcon
        intro d hd
        cases pre' with
        | nil =>
          have hd' : d = c := by
            rw [List.getLast?_singleton] at hd
            exact (Option.some_injective _ hd).symm
          subst hd'
          exact h1 rfl
        | cons e rest =>
          rw [List.getLast?_cons_cons] at hd
          exact h2 d hd
    · rintro ⟨pre, post, hp, h1, h2, h3⟩
      simp only [scanWord, Bool.or_eq_true, Bool.and_eq_true, Bool.not_eq_true']
      cases pre with
      | nil =>
        left
        refine ⟨h1 rfl, (matchesAt_iff w (c :: s')).mpr ⟨post, by simpa using hp, h3⟩⟩
      | cons d pre' =>
        right
        rw [List.cons_append] at hp
        injection hp with hdc hs'
        subst hdc
        refine (ih (isWordChar c)).mpr ⟨pre', post, hs', ?_, ?_, h3⟩
        · intro hpre'
          subst hpre'
          exact h2 c (by rw [List.getLast?_singleton])
        · intro e he
          apply h2 e
          cases pre' with
          | nil => cases he
          | cons f rest => rw [List.getLast?_cons_cons]; exact he

/-- The boolean word search of the source agrees with the declarative
whole-word containment. -/
theorem containsWord_iff (w s : String) :
    containsWord w s = true ↔ ContainsWordL w.data s.data := by
  unfold containsWord ContainsWordL
  rw [scanWord_iff]
  constructor
  · rintro ⟨pre, post, hp, -, h2, h3⟩
    exact ⟨pre, post, hp, h2, h3⟩
  · rintro ⟨pre, post, hp, h2, h3⟩
    exact ⟨pre, post, hp, fun _ => rfl, h2, h3⟩

/-- A nonempty word is never contained in the empty character list. -/
theorem ContainsWordL_nil (w : List Char) (hw : w ≠ []) : ¬ ContainsWordL w [] := by
  rintro ⟨pre, post, hp, -, -⟩
  have hlen := congrArg List.length hp
  simp only [List.length_nil, List.length_append] at hlen
  have hw0 : w.length = 0 := by omega
  exact hw (List.length_eq_zero.mp hw0)

/-- Claim C5, as amended: subject inference is whole-word matching on the
lowercased title against the ordered rules physics, chemistry,
math/maths/mathematics, falling through to `Other Subjects`; an absent,
non-string, or empty title yields `Unknown Subject`. -/
theorem claim_C5_subject (t : TitleVal) :
    ((t = .absent ∨ t = .nonString) → extract_subject_from_title t = "Unknown Subject")
  ∧ extract_subject_from_title (.str "") = "Unknown Subject"
  ∧ (∀ s : String, t = .str s → s ≠ "" →
      ((ContainsWordL "physics".data (strLower s).data →
          extract_subject_from_title t = "Physics")
       ∧ (¬ ContainsWordL "physics".data (strLower s).data →
          ContainsWordL "chemistry".data (strLower s).data →
          extract_subject_from_title t = "Chemistry")
       ∧ (¬ ContainsWordL "physics".data (strLower s).data →
          ¬ ContainsWordL "chemistry".data (strLower s).data →
          (ContainsWordL "math".data (strLower s).data
            ∨ ContainsWordL "maths".data (strLower s).data
            ∨ ContainsWordL "mathematics".data (strLower s).data) →
          extract_subject_from_title t = "Maths")
       ∧ (¬ ContainsWordL "physics".data (strLower s).data →
          ¬ ContainsWordL "chemistry".data (strLower s).data →
          ¬ ContainsWordL "math".data (strLower s).data →
          ¬ ContainsWordL "maths".data (strLower s).data →
          ¬ ContainsWordL "mathematics".data (strLower s).data →
          extract_subject_from_title t = "Other Subjects"))) := by
  refine ⟨?_, rfl, ?_⟩
  · rintro (h | h) <;> rw [h] <;> rfl
  · intro s hts hne
    subst hts
    have hb : ∀ w : String, ¬ ContainsWordL w.data (strLower s).data →
        containsWord w (strLower s) = false := by
      intro w hw
      cases hcw : containsWord w (strLower s)
      · rfl
      · exact absurd ((containsWord_iff w (strLower s)).mp hcw) hw
    refine ⟨?_, ?_, ?_, ?_⟩
    · intro hP
      have h1 : containsWord "physics" (strLower s) = true :=
        (containsWord_iff _ _).mpr hP
      simp [extract_subject_from_title, hne, h1]
    · intro hnP hC
      have h1 := hb "physics" hnP
      have h2 : containsWord "chemistry" (strLower s) = true :=
        (containsWord_iff _ _).mpr hC
      simp [extract_subject_from_title, hne, h1, h2]
    · intro hnP hnC hM
      have h1 := hb "physics" hnP
      have h2 := hb "chemistry" hnC
      have h3 : containsWord "math" (strLower s) = true
          ∨ containsWord "maths" (strLower s) = true
          ∨ containsWord "mathematics" (strLower s) = true := by
        rcases hM with h | h | h
        · exact Or.inl ((containsWord_iff _ _).mpr h)
        · exact Or.inr (Or.inl ((containsWord_iff _ _).mpr h))
        · exact Or.inr (Or.inr ((containsWord_iff _ _).mpr h))
      rcases h3 with h3 | h3 | h3 <;> simp [extract_subject_from_title, hne, h1, h2, h3]
    · intro hnP hnC hnM1 hnM2 hnM3
      have h1 := hb "physics" hnP
      have h2 := hb "chemistry" hnC
      have h3 := hb "math" hnM1
      have h4 := hb "maths" hnM2
      have h5 := hb "mathematics" hnM3
      simp [extract_subject_from_title, hne, h1, h2, h3, h4, h5]

/-- Witness for C5 at a concrete input: a title with extra words still
matches, `Physics Section 2` infers `Physics`. -/
theorem claim_C5_witness :
    extract_subject_from_title (.str "Physics Section 2") = "Physics" := by
  have hcw : ContainsWordL "physics".data (strLower "Physics Section 2").data := by
    refine ⟨[], " section 2".data, by decide, ?_, ?_⟩
    · intro c hc
      simp at hc
    · intro c hc
      have h : (" section 2".data).head? = some ' ' := rfl
      rw [h] at hc
      injection hc with hc
      rw [← hc]
      decide
  exact ((claim_C5_subject (.str "Physics Section 2")).2.2 "Physics Section 2" rfl
    (by decide)).1 hcw

/-- Counterexample to C5 as stated: the empty string is a string title
matching no rule, yet it infers `Unknown Subject` (the source treats any
falsy title as missing), where the rule set as claimed demands
`Other Subjects`. -/
theorem claim_C5_counterexample :
    extract_subject_from_title (.str "") = "Unknown Subject"
  ∧ "Unknown Subject" ≠ "Other Subjects"
  ∧ ¬ ContainsWordL "physics".data (strLower "").data
  ∧ ¬ ContainsWordL "chemistry".data (strLower "").data
  ∧ ¬ ContainsWordL "math".data (strLower "").data
  ∧ ¬ ContainsWordL "maths".data (strLower "").data
  ∧ ¬ ContainsWordL "mathematics".data (strLower "").data := by
  have hnil : (strLower "").data = [] := rfl
  refine ⟨rfl, by decide, ?_, ?_, ?_, ?_, ?_⟩ <;>
    · rw [hnil]
      exact ContainsWordL_nil _ (by decide)

theorem lookupA_bumpConcept (acc : List (String × ConceptAgg)) (c : String)
    (q : FlatQuestion) (x : String) :
    lookupA (bumpConcept acc c q) x =
      if x = c then some (extendAgg (lookupA acc x) q) else lookupA acc x := by
  induction acc with
  | nil =>
    show lookupA [(c, _)] x = _
    unfold lookupA
    by_cases hcx : c = x
    · rw [if_pos hcx, if_pos hcx.symm]
      simp [extendAgg, indCorrect]
    · rw [if_neg hcx, if_neg (fun h => hcx h.symm)]
      rfl
  | cons kv rest ih =>
    obtain ⟨k, v⟩ := kv
    show lookupA (if k = c then _ else (k, v) :: bumpConcept rest c q) x = _
    by_cases hkc : k = c
    · rw [if_pos hkc]
      unfold lookupA
      by_cases hkx : k = x
      · have hxc : x = c := hkx.symm.trans hkc
        rw [if_pos hkx, if_pos hkx, if_pos hxc]
        simp [extendAgg, indCorrect]
      · have hxc : ¬ x = c := fun h => hkx (hkc.trans h.symm)
        rw [if_neg hkx, if_neg hkx, if_neg hxc]
    · rw [if_neg hkc]
      unfold lookupA
      by_cases hkx : k = x
      · have hxc : ¬ x = c := fun h => hkc (hkx.trans h)
        rw [if_pos hkx, if_pos hkx, if_neg hxc]
      · rw [if_neg hkx, if_neg hkx, ih]

theorem extendAggN_some_comm (q : FlatQuestion) (o : Option ConceptAgg) :
    ∀ n : Nat, extendAggN (some (extendAgg o q)) q n = some (extendAgg (extendAggN o q n) q) := by
  intro n
  induction n with
  | zero => rfl
  | succ n ih =>
    show some (extendAgg (extendAggN (some (extendAgg o q)) q n) q) = _
    rw [ih]
    rfl

theorem lookupA_conceptStepFold (q : FlatQuestion) (x : String) :
    ∀ (l : List String) (acc : List (String × ConceptAgg)),
      lookupA (l.foldl (fun a c => if c = "" then a else bumpConcept a c q) acc) x =
        extendAggN (lookupA acc x) q ((l.filter (fun c => c ≠ "")).count x) := by
  intro l
  induction l with
  | nil =>
    intro acc
    rfl
  | cons c l' ih =>
    intro acc
    by_cases hc : c = ""
    · rw [List.foldl_cons, if_pos hc]
      rw [ih acc]
      have : (List.filter (fun c => c ≠ "") (c :: l')) = List.filter (fun c => c ≠ "") l' := by
        simp [List.filter_cons, hc]
      rw [this]
    · rw [List.foldl_cons, if_neg hc]
      rw [ih (bumpConcept acc c q)]
      rw [lookupA_bumpConcept]
      have hfil : (List.filter (fun c => c ≠ "") (c :: l')) =
          c :: List.filter (fun c => c ≠ "") l' := by
        simp [List.filter_cons, hc]
      rw [hfil]
      by_cases hxc : x = c
      · subst hxc
        rw [if_pos rfl]
        rw [List.count_cons_self]
        rw [extendAggN_some_comm]
        rfl
      · rw [if_neg hxc]
        rw [List.count_cons_of_ne (fun h => hxc h) ]

theorem mergeAgg_assoc (o : Option ConceptAgg) (u v : ConceptAgg) :
    mergeAgg (some (mergeAgg o u)) v = mergeAgg o (mergeAgg (some u) v) := by
  cases o with
  | none => rfl
  | some w => simp [mergeAgg, Nat.add_assoc, List.append_assoc]

theorem extendAgg_as_merge (o : Option ConceptAgg) (q : FlatQuestion) :
    extendAgg o q = mergeAgg o { correct := indCorrect q, total := 1,
                                 time_taken_list := [q.time_taken_seconds] } := by
  cases o with
  | none => rfl
  | some v => rfl

theorem extendAggN_eq (q : FlatQuestion) (o : Option ConceptAgg) :
    ∀ n : Nat, n ≠ 0 →
      extendAggN o q n =
        some (mergeAgg o { correct := indCorrect q * n, total := n,
                           time_taken_list := List.replicate n q.time_taken_seconds }) := by
  intro n
  induction n with
  | zero => intro h; exact absurd rfl h
  | succ n ih =>
    intro _
    cases Nat.eq_zero_or_pos n with
    | inl h0 =>
      subst h0
      show some (extendAgg o q) = _
      rw [extendAgg_as_merge]
      simp
    | inr hpos =>
      have hne : n ≠ 0 := Nat.pos_iff_ne_zero.mp hpos
      show some (extendAgg (extendAggN o q n) q) = _
      rw [ih hne, extendAgg_as_merge, mergeAgg_assoc]
      have : mergeAgg (some { correct := indCorrect q * n, total := n,
                              time_taken_list := List.replicate n q.time_taken_seconds })
               { correct := indCorrect q, total := 1,
                 time_taken_list := [q.time_taken_seconds] } =
             { correct := indCorrect q * (n + 1), total := n + 1,
               time_taken_list := List.replicate (n + 1) q.time_taken_seconds } := by
        simp [mergeAgg, Nat.mul_succ, List.replicate_succ']
      rw [this]

theorem conceptTotal_zero (x : String) :
    ∀ qs : List FlatQuestion, conceptTotal x qs = 0 →
      conceptCorrect x qs = 0 ∧ conceptTimes x qs = [] := by
  intro qs
  induction qs with
  | nil => intro _; exact ⟨rfl, rfl⟩
  | cons q qs ih =>
    intro h
    unfold conceptTotal at h
    rw [List.map_cons, List.sum_cons] at h
    have h1 : conceptOcc x q = 0 := by omega
    have h2 : conceptTotal x qs = 0 := by
      unfold conceptTotal
      omega
    obtain ⟨hc, ht⟩ := ih h2
    constructor
    · unfold conceptCorrect
      rw [List.map_cons, List.sum_cons]
      unfold conceptCorrect at hc
      rw [hc, h1]
      simp
    · unfold conceptTimes
      rw [List.map_cons, List.flatten_cons, h1]
      unfold conceptTimes at ht
      rw [ht]
      simp

theorem extendAggQs_eq (x : String) :
    ∀ (qs : List FlatQuestion) (o : Option ConceptAgg),
      extendAggQs o x qs =
        if conceptTotal x qs = 0 then o
        else some (mergeAgg o { correct := conceptCorrect x qs, total := conceptTotal x qs,
                                time_taken_list := conceptTimes x qs }) := by
  intro qs
  induction qs with
  | nil =>
    intro o
    rfl
  | cons q qs ih =>
    intro o
    show extendAggQs (extendAggN o q (conceptOcc x q)) x qs = _
    rw [ih]
    have hTot : conceptTotal x (q :: qs) = conceptOcc x q + conceptTotal x qs := by
      unfold conceptTotal
      rw [List.map_cons, List.sum_cons]
    have hCor : conceptCorrect x (q :: qs) =
        indCorrect q * conceptOcc x q + conceptCorrect x qs := by
      unfold conceptCorrect
      rw [List.map_cons, List.sum_cons]
      congr 1
      by_cases hs : q.status = "Correct" <;> simp [indCorrect, hs]
    have hTim : conceptTimes x (q :: qs) =
        List.replicate (conceptOcc x q) q.time_taken_seconds ++ conceptTimes x qs := by
      unfold conceptTimes
      rw [List.map_cons, List.flatten_cons]
    cases Nat.eq_zero_or_pos (conceptOcc x q) with
    | inl hocc =>
      rw [hocc]
      show (if conceptTotal x qs = 0 then o else _) = _
      rw [hTot, hocc, Nat.zero_add, hCor, hocc, Nat.mul_zero, Nat.zero_add, hTim, hocc]
      simp [extendAggN]
    | inr hocc =>
      have hne : conceptOcc x q ≠ 0 := Nat.pos_iff_ne_zero.mp hocc
      rw [extendAggN_eq q o _ hne]
      have hne2 : conceptTotal x (q :: qs) ≠ 0 := by
        rw [hTot]
        omega
      rw [if_neg hne2]
      by_cases hqs : conceptTotal x qs = 0
      · rw [if_pos hqs]
        obtain ⟨hc0, ht0⟩ := conceptTotal_zero x qs hqs
        rw [hTot, hCor, hTim, hqs, hc0, ht0]
        simp
      · rw [if_neg hqs, mergeAgg_assoc]
        congr 1
        rw [hTot, hCor, hTim]
        simp [mergeAgg]

theorem lookupA_conceptAggAll (x : String) (qs : List FlatQuestion) :
    lookupA (conceptAggAll qs) x =
      if conceptTotal x qs = 0 then none
      else some { correct := conceptCorrect x qs, total := conceptTotal x qs,
                  time_taken_list := conceptTimes x qs } := by
  unfold conceptAggAll
  have hfold : ∀ (l : List FlatQuestion) (acc : List (String × ConceptAgg)),
      lookupA (l.foldl conceptStep acc) x = extendAggQs (lookupA acc x) x l := by
    intro l
    induction l with
    | nil => intro acc; rfl
    | cons q l' ih =>
      intro acc
      rw [List.foldl_cons]
      rw [ih (conceptStep acc q)]
      show extendAggQs (lookupA (conceptStep acc q) x) x l' = _
      rw [show lookupA (conceptStep acc q) x =
            extendAggN (lookupA acc x) q (conceptOcc x q) from
        lookupA_conceptStepFold q x q.concepts acc]
      rfl
  rw [hfold qs []]
  rw [extendAggQs_eq]
  show (if conceptTotal x qs = 0 then (none : Option ConceptAgg) else _) = _
  by_cases h : conceptTotal x qs = 0
  · rw [if_pos h, if_pos h]
  · rw [if_neg h, if_neg h]
    rfl

theorem lookupA_map_summary :
    ∀ (l : List (String × ConceptAgg)) (x : String),
      lookupA (l.map (fun p => (p.1, conceptSummaryOf p.2))) x =
        (lookupA l x).map conceptSummaryOf := by
  intro l
  induction l with
  | nil => intro x; rfl
  | cons kv rest ih =>
    intro x
    obtain ⟨k, v⟩ := kv
    show lookupA ((k, conceptSummaryOf v) :: _) x = _
    unfold lookupA
    by_cases hkx : k = x
    · rw [if_pos hkx, if_pos hkx]
      rfl
    · rw [if_neg hkx, if_neg hkx]
      exact ih x

/-- Claim C8: each question contributes one accumulation per non-empty
entry of its concept list; for every concept key present in the output,
total is the occurrence count, correct the occurrence count over
`Correct` rows, the average the rounded mean of the accumulated times; a
key is present iff it occurs (and rows exist); and on the demo list the
concept totals sum to 3 over 2 questions. -/
theorem claim_C8_concepts :
    (∀ (qs : List FlatQuestion) (c : String) (g : GroupSummary),
        lookupA (concept_performance_of qs) c = some g →
          g.total_questions = conceptTotal c qs
          ∧ g.correct_answers = conceptCorrect c qs
          ∧ g.accuracy_percent =
              round2 (((conceptCorrect c qs : ℚ) / (conceptTotal c qs : ℚ)) * 100)
          ∧ g.average_time_seconds = round2 (qmean (conceptTimes c qs)))
  ∧ (∀ (qs : List FlatQuestion) (c : String),
        (lookupA (concept_performance_of qs) c).isSome = true ↔
          qs ≠ [] ∧ 0 < conceptTotal c qs)
  ∧ ((concept_performance_of demoConcepts).map (fun p => p.2.total_questions)).sum = 3
  ∧ demoConcepts.length = 2 := by
  refine ⟨?_, ?_, rfl, rfl⟩
  · intro qs c g h
    unfold concept_performance_of at h
    by_cases hq : qs.isEmpty
    · rw [if_pos hq] at h
      cases h
    · rw [if_neg hq] at h
      rw [lookupA_map_summary, lookupA_conceptAggAll] at h
      by_cases ht : conceptTotal c qs = 0
      · rw [if_pos ht] at h
        cases h
      · rw [if_neg ht] at h
        simp only [Option.map_some'] at h
        injection h with h
        rw [← h]
        refine ⟨rfl, rfl, ?_, rfl⟩
        show round2 (if conceptTotal c qs ≠ 0 then _ else 0) = _
        rw [if_pos ht]
  · intro qs c
    unfold concept_performance_of
    cases qs with
    | nil =>
      simp [lookupA]
    | cons q qs' =>
      rw [if_neg (by simp)]
      rw [lookupA_map_summary, lookupA_conceptAggAll]
      by_cases ht : conceptTotal c (q :: qs') = 0
      · rw [if_pos ht]
        simp [ht]
      · rw [if_neg ht]
        simp [Nat.pos_of_ne_zero ht]

/-- Witness for C8 at a concrete input: the entry of concept `A` over the
demo list satisfies the occurrence-count characterization. -/
theorem claim_C8_witness :
    gDemoA.total_questions = conceptTotal "A" demoConcepts
  ∧ gDemoA.correct_answers = conceptCorrect "A" demoConcepts
  ∧ gDemoA.accuracy_percent =
      round2 (((conceptCorrect "A" demoConcepts : ℚ) / (conceptTotal "A" demoConcepts : ℚ)) * 100)
  ∧ gDemoA.average_time_seconds = round2 (qmean (conceptTimes "A" demoConcepts)) :=
  claim_C8_concepts.1 demoConcepts "A" gDemoA rfl
